import Mathlib

/-!
Verification of the tanstack-query runtime core
(`packages/plugins/tanstack-query/src/runtime/common.ts`).

JSON texts and the trees produced by `JSON.parse` are identified: values on
the wire are represented by the `Value` type below, and the composition
`JSON.parse ∘ JSON.stringify`, which is the identity on JSON-representable
trees, is elided.  JavaScript `undefined` is represented by `Option.none`
at the positions where the source can observe it.
-/

namespace ZenStack

/-- A JavaScript runtime value as visible to this subsystem: the JSON
constructors plus the one explicitly-supported rich type, `Date`
(represented by its timestamp). -/
inductive Value where
  | null
  | bool (b : Bool)
  | num (n : Int)
  | str (s : String)
  | date (t : Int)
  | arr (elems : List Value)
  | obj (fields : List (String × Value))

/-- JavaScript truthiness of a value. -/
def truthy : Value → Bool
  | .null => false
  | .bool b => b
  | .num n => n != 0
  | .str s => s != ""
  | .date _ => true
  | .arr _ => true
  | .obj _ => true

/-- Truthiness of a possibly-undefined value (`undefined` is falsy). -/
def truthyOpt : Option Value → Bool
  | none => false
  | some v => truthy v

/-- JavaScript property access `v.k`: defined on objects, `undefined`
elsewhere.  (Access on `null` throws a `TypeError` in JavaScript; that
exceptional path is outside the modelled behaviours.) -/
def getField : Value → String → Option Value
  | .obj fs, k => fs.lookup k
  | _, _ => none

/-- Set key `k` to `v` in an object's field list, JavaScript-style: an
existing key keeps its position, a new key is appended. -/
def setKey (fs : List (String × Value)) (k : String) (v : Value) : List (String × Value) :=
  if fs.any (fun p => p.1 == k) then
    fs.map (fun p => if p.1 == k then (p.1, v) else p)
  else
    fs ++ [(k, v)]

/-- `{ ...o, k: v }` on an object; other values are untouched (the spread
sites in the source only ever receive objects). -/
def setField (o : Value) (k : String) (v : Value) : Value :=
  match o with
  | .obj fs => .obj (setKey fs k v)
  | other => other

/-!
### The serialization collaborator

Modelled from the spec: `serialize`/`deserialize` come from
`@zenstackhq/runtime/browser`, which is outside this subsystem ("wire
serialization of rich value types (dates, bigints, etc.) into JSON" is an
external collaborator, specified only at its interface).  `serialize`
replaces each rich value (here: dates) by a JSON-representable stand-in and
returns, when any rich value was present, serialization metadata recording
where those values live; `deserialize` applies the metadata to restore
them.  Metadata is modelled as the list of access paths to the rich
values.
-/

mutual

/-- Replace every date in a value by its string rendering. -/
def serializeData : Value → Value
  | .null => .null
  | .bool b => .bool b
  | .num n => .num n
  | .str s => .str s
  | .date t => .str (toString t)
  | .arr xs => .arr (serializeDataList xs)
  | .obj fs => .obj (serializeDataFields fs)

def serializeDataList : List Value → List Value
  | [] => []
  | x :: xs => serializeData x :: serializeDataList xs

def serializeDataFields : List (String × Value) → List (String × Value)
  | [] => []
  | (k, v) :: fs => (k, serializeData v) :: serializeDataFields fs

end

mutual

/-- Access paths (lists of object keys / array indices) of all dates in a
value. -/
def datePaths : Value → List (List String)
  | .null => []
  | .bool _ => []
  | .num _ => []
  | .str _ => []
  | .date _ => [[]]
  | .arr xs => datePathsList 0 xs
  | .obj fs => datePathsFields fs

def datePathsList : Nat → List Value → List (List String)
  | _, [] => []
  | i, x :: xs => (datePaths x).map (fun p => toString i :: p) ++ datePathsList (i + 1) xs

def datePathsFields : List (String × Value) → List (List String)
  | [] => []
  | (k, v) :: fs => (datePaths v).map (fun p => k :: p) ++ datePathsFields fs

end

/-- `serialize` of the external runtime: JSON-safe data plus optional
serialization metadata; the metadata is present exactly when the value
holds a rich (non-JSON) value. -/
def serialize (v : Value) : Value × Option (List (List String)) :=
  let ps := datePaths v
  (serializeData v, if ps.isEmpty then none else some ps)

/-- Rewrite the value found at the end of an access path. -/
def setAtPath (f : Value → Value) : List String → Value → Value
  | [], v => f v
  | k :: rest, .obj fs =>
      .obj (fs.map (fun p => if p.1 == k then (p.1, setAtPath f rest p.2) else p))
  | k :: rest, .arr xs =>
      .arr ((xs.enum).map (fun p => if toString p.1 == k then setAtPath f rest p.2 else p.2))
  | _ :: _, v => v

/-- Restore a date from its serialized string form. -/
def reviveDate : Value → Value
  | .str s => .date ((s.toInt?).getD 0)
  | v => v

/-- `deserialize` of the external runtime: restore the rich values the
metadata points at. -/
def deserialize (data : Value) (meta : List (List String)) : Value :=
  meta.foldl (fun acc p => setAtPath reviveDate p acc) data

/-- Wire form of the serialization metadata as embedded in a JSON body. -/
def metaToValue (m : List (List String)) : Value :=
  .arr (m.map (fun p => .arr (p.map Value.str)))

/-- Decode the wire form of serialization metadata. -/
def valueToMeta : Value → List (List String)
  | .arr ps =>
      ps.map (fun p =>
        match p with
        | .arr ks => ks.map (fun k => match k with | .str s => s | _ => "")
        | _ => [])
  | _ => []

/-- JavaScript object spread `{ ...data, meta: m }` as performed by
`marshal`: enumerable own properties of `data` (keyed characters for a
string, indexed elements for an array, nothing for other primitives),
with key `"meta"` then set to `m`. -/
def spreadWithMeta (data : Value) (m : Value) : Value :=
  match data with
  | .obj fs => .obj (setKey fs "meta" m)
  | .arr xs => .obj (setKey ((xs.enum).map (fun p => (toString p.1, p.2))) "meta" m)
  | .str s => .obj (setKey ((s.toList.enum).map (fun p => (toString p.1, Value.str (String.mk [p.2])))) "meta" m)
  | _ => .obj [("meta", m)]

/-- `marshal` (source `common.ts:119-126`): serialize, and when metadata is
present splice it into the payload as a top-level `meta` key. -/
def marshal (v : Value) : Value :=
  match serialize v with
  | (data, some m) => spreadWithMeta data (.obj [("serialization", metaToValue m)])
  | (data, none) => data

/-- The test `parsed.data && parsed.meta?.serialization` of `unmarshal`,
returning the two payloads when the deserialization branch is taken. -/
def envelopeParts (v : Value) : Option (Value × Value) :=
  match getField v "data", (getField v "meta").bind (fun m => getField m "serialization") with
  | some d, some s => if truthy d && truthy s then some (d, s) else none
  | _, _ => none

/-- `unmarshal` (source `common.ts:128-136`): parse, and when the body
carries a data payload together with serialization metadata, replace the
data payload by its deserialization. -/
def unmarshal (v : Value) : Value :=
  match envelopeParts v with
  | some (d, s) => setField v "data" (deserialize d (valueToMeta s))
  | none => v

/-!
### `fetcher` (source `common.ts:48-82`)

A `Response` is modelled by its status code and (already parsed) JSON
body.  The returned promise either resolves — possibly to `undefined`,
modelled as `none` — or rejects with the `Error` built at
`common.ts:67-72`, which carries the response's error payload (`info`)
and status code.
-/

/-- HTTP response as observed by `fetcher`. -/
structure Response where
  status : Nat
  body : Value

/-- `Response.ok`: status in the inclusive range 200–299. -/
def resOk (status : Nat) : Bool :=
  decide (200 ≤ status) && decide (status ≤ 299)

/-- Outcome of a `fetcher` call: resolution with a (possibly absent)
value, or rejection with an error carrying payload and status. -/
inductive FetchResult where
  | success (data : Option Value)
  | failure (info : Option Value) (status : Nat)

/-- `v = s` for an optional value that must be exactly the string `s`
(JavaScript strict equality `=== 's'`). -/
def isStr (v : Option Value) (s : String) : Bool :=
  match v with
  | some (.str t) => t == s
  | _ => false

/-- The policy-denied read-back pattern tested at `common.ts:59-62`:
`errData.error?.prisma` truthy, `errData.error?.code === 'P2004'`,
`errData.error?.reason === 'RESULT_NOT_READABLE'`. -/
def policyDenied (errData : Value) : Bool :=
  truthyOpt ((getField errData "error").bind (fun e => getField e "prisma"))
    && isStr ((getField errData "error").bind (fun e => getField e "code")) "P2004"
    && isStr ((getField errData "error").bind (fun e => getField e "reason")) "RESULT_NOT_READABLE"

/-- `fetcher`: on a non-ok status, resolve to `undefined` when read-back
checking is not explicitly disabled and the error payload matches the
policy-denied pattern, otherwise reject with the error payload and
status; on an ok status resolve to the unmarshalled body's `data` field.
`checkReadBack` is the optional boolean parameter (`none` = omitted). -/
def fetcher (checkReadBack : Option Bool) (res : Response) : FetchResult :=
  if !resOk res.status then
    let errData := unmarshal res.body
    if (checkReadBack != some false) && policyDenied errData then
      .success none
    else
      .failure (getField errData "error") res.status
  else
    .success (getField (unmarshal res.body) "data")

/-!
### Query keys (source `common.ts:84-117`)
-/

/-- Prefix for react-query keys (source `common.ts:21`). -/
def QUERY_KEY_PREFIX : String := "zenstack"

/-- The flags element of a query key. -/
structure QueryFlags where
  infinite : Bool
  optimisticUpdate : Bool

/-- The five-element `QueryKey` tuple of the source, as a structure. -/
structure QueryKey where
  keyNs : String
  model : String
  operation : String
  args : Option Value
  flags : QueryFlags

/-- JavaScript `s.split(sep)` for a single-character separator: split at
every occurrence, keeping empty segments; the empty string yields
`[""]`. -/
def splitChar (sep : Char) : List Char → List (List Char)
  | [] => [[]]
  | c :: rest =>
    let r := splitChar sep rest
    if c = sep then [] :: r
    else
      match r with
      | hd :: tl => (c :: hd) :: tl
      | [] => [[c]]

/-- `url.split('/').pop()`: the last `/`-separated segment of a string
(JavaScript `split` never yields an empty array, so `pop` is total
here). -/
def lastSegment (s : String) : String :=
  String.mk ((splitChar '/' s.data).getLastD [])

/-- `getQueryKey` (source `common.ts:104-117`): throws on a falsy
`urlOrOperation` (for a string: the empty string), otherwise builds the
key tuple with the last path segment as operation name. -/
def getQueryKey (model urlOrOperation : String) (args : Option Value)
    (infinite optimisticUpdate : Bool) : Except String QueryKey :=
  if urlOrOperation == "" then
    .error "Invalid urlOrOperation"
  else
    .ok ⟨QUERY_KEY_PREFIX, model, lastSegment urlOrOperation, args, ⟨infinite, optimisticUpdate⟩⟩

/-!
### The schema graph and the cross-runtime collaborators

`ModelMeta`, `getMutatedModels`, `getReadModels` and `applyMutation` come
from `@zenstackhq/runtime/cross`, outside this subsystem.  `ModelMeta` is
modelled from the spec ("Maps model name → field list, each field
optionally describing a relation `(targetModel, isList, isRequired)`");
the three functions are opaque collaborators and appear as parameters of
the definitions that call them, exactly at the call sites of the source.
Their asynchrony is irrelevant here: every call is awaited before its
result is used.
-/

/-- Modelled from the spec: relation metadata of a schema field. -/
structure RelationInfo where
  targetModel : String
  isList : Bool
  isRequired : Bool

/-- Modelled from the spec: one field of a model, optionally a relation. -/
structure FieldMeta where
  name : String
  relation : Option RelationInfo

/-- Modelled from the spec: the immutable schema graph. -/
structure ModelMeta where
  models : List (String × List FieldMeta)

/-- Signature of `getMutatedModels(model, operation, mutationArgs, modelMeta)`. -/
abbrev GetMutatedModelsFn := String → String → Option Value → ModelMeta → List String

/-- Signature of `getReadModels(model, modelMeta, args)`. -/
abbrev GetReadModelsFn := String → ModelMeta → Value → List String

/-- Signature of `applyMutation(queryModel, queryOp, data, mutationModel,
mutationOp, mutationArgs, modelMeta, logging)`; `none` is the `undefined`
result signalling "not applicable". -/
abbrev ApplyMutationFn :=
  String → String → Option Value → String → String → Option Value → ModelMeta → Bool → Option Value

/-!
### Invalidation predicate (source `common.ts:184-224`)

A `console.log` call is modelled as an appended log entry recording the
query key under the mutation's model and operation; the predicate
therefore returns the boolean together with the list of log entries it
emitted.
-/

/-- One diagnostic log entry: the invalidated query key and the mutation's
model and operation named in the message. -/
structure LogEntry where
  queryKey : QueryKey
  model : String
  operation : String

/-- `findNestedRead` (source `common.ts:221-224`). -/
def findNestedRead (getReadModels : GetReadModelsFn) (visitingModel : String)
    (targetModels : List String) (modelMeta : ModelMeta) (args : Value) : Bool :=
  let modelsRead := getReadModels visitingModel modelMeta args
  targetModels.any (fun m => modelsRead.contains m)

/-- The closure returned by `getInvalidationPredicate`
(source `common.ts:193-217`), applied to a query key: true on a direct
hit (query model in the mutated-model set), else, when the key carries
truthy args, true on a nested-read hit, else false.  The second
component is the diagnostic log output. -/
def invalidationPredicate (getReadModels : GetReadModelsFn) (model operation : String)
    (mutatedModels : List String) (modelMeta : ModelMeta) (logging : Bool)
    (queryKey : QueryKey) : Bool × List LogEntry :=
  if mutatedModels.contains queryKey.model then
    (true, if logging then [⟨queryKey, model, operation⟩] else [])
  else if truthyOpt queryKey.args then
    if findNestedRead getReadModels queryKey.model mutatedModels modelMeta (queryKey.args.getD .null) then
      (true, if logging then [⟨queryKey, model, operation⟩] else [])
    else
      (false, [])
  else
    (false, [])

/-- `getInvalidationPredicate` (source `common.ts:184-218`): resolve the
mutated-model set through the collaborator, then close over it. -/
def getInvalidationPredicate (getMutatedModels : GetMutatedModelsFn)
    (getReadModels : GetReadModelsFn) (model operation : String)
    (mutationArgs : Option Value) (modelMeta : ModelMeta) (logging : Bool) :
    QueryKey → Bool × List LogEntry :=
  invalidationPredicate getReadModels model operation
    (getMutatedModels model operation mutationArgs modelMeta) modelMeta logging

/-!
### Optimistic update scan (source `common.ts:282-335`)
-/

/-- `state` of a cache entry. -/
structure CacheState where
  data : Option Value
  error : Option Value

/-- One entry of the `QueryCache` list. -/
structure CacheItem where
  queryKey : QueryKey
  state : CacheState

/-- Processing of a single cache entry by the loop body of
`optimisticUpdate`: whether `applyMutation` was invoked on it, and the
`setCache` call it issued, if any. -/
structure ItemOutcome where
  mergeInvoked : Bool
  setCacheCall : Option (QueryKey × Value)

/-- One iteration of the `optimisticUpdate` loop (source
`common.ts:291-334`): skip on a truthy error, skip on the opt-out flag,
otherwise invoke `applyMutation` and issue a `setCache` call when its
result is not `undefined`. -/
def processCacheItem (applyMutation : ApplyMutationFn) (mutationModel mutationOp : String)
    (mutationArgs : Option Value) (modelMeta : ModelMeta) (logging : Bool)
    (item : CacheItem) : ItemOutcome :=
  if truthyOpt item.state.error then
    ⟨false, none⟩
  else if !item.queryKey.flags.optimisticUpdate then
    ⟨false, none⟩
  else
    match applyMutation item.queryKey.model item.queryKey.operation item.state.data
        mutationModel mutationOp mutationArgs modelMeta logging with
    | some newData => ⟨true, some (item.queryKey, newData)⟩
    | none => ⟨true, none⟩

/-- `optimisticUpdate` (source `common.ts:282-335`): the sequence of
`setCache` calls issued while scanning the cache.  (The skip-diagnostic
console output of this scan is not modelled; it carries no data used
elsewhere.) -/
def optimisticUpdate (applyMutation : ApplyMutationFn) (mutationModel mutationOp : String)
    (mutationArgs : Option Value) (modelMeta : ModelMeta) (queryCache : List CacheItem)
    (logging : Bool) : List (QueryKey × Value) :=
  queryCache.filterMap
    (fun item => (processCacheItem applyMutation mutationModel mutationOp mutationArgs modelMeta logging item).setCacheCall)

/-!
### Lifecycle composition (source `common.ts:160-181`, `236-279`, `534-565`)

The collaborator primitives invoked by the wrapped lifecycle hooks —
`invalidate(predicate)` and `setCache(queryKey, data)` — are opaque; a
call to one of them is recorded as an `Effect` in the order the source
performs it (every call is awaited, so the order is the textual one).  A
lifecycle hook is then a function from its argument list to the effects
it performs plus its return value (`none` for `undefined`).
-/

/-- A call to one of the orchestrator's collaborator primitives. -/
inductive Effect where
  | invalidateCall (predicate : QueryKey → Bool × List LogEntry)
  | setCacheCall (queryKey : QueryKey) (data : Value)

/-- A lifecycle hook: effects performed, and return value. -/
abbrev Hook := List Value → List Effect × Option Value

/-- The `MutationOptions` record: the three optional lifecycle hooks. -/
structure MutationOptions where
  onMutate : Option Hook
  onSuccess : Option Hook
  onSettled : Option Hook

/-- `origHook?.(...args)`: run an optional hook; a missing hook performs
nothing and returns `undefined`. -/
def runHook (h : Option Hook) (args : List Value) : List Effect × Option Value :=
  match h with
  | some f => f args
  | none => ([], none)

/-- `setupInvalidation` (source `common.ts:160-181`): replace `onSuccess`
by a hook that extracts `variables` (second argument), builds the
invalidation predicate, calls the `invalidate` collaborator with it, and
finally invokes the original `onSuccess`, returning its value. -/
def setupInvalidation (getMutatedModels : GetMutatedModelsFn) (getReadModels : GetReadModelsFn)
    (model operation : String) (modelMeta : ModelMeta) (options : MutationOptions)
    (logging : Bool) : MutationOptions :=
  let origOnSuccess := options.onSuccess
  { options with
    onSuccess := some (fun args =>
      let vars := args.get? 1
      let predicate := getInvalidationPredicate getMutatedModels getReadModels
        model operation vars modelMeta logging
      let orig := runHook origOnSuccess args
      (Effect.invalidateCall predicate :: orig.1, orig.2)) }

/-- `setupOptimisticUpdate` (source `common.ts:236-279`): replace
`onMutate` by a hook that performs the optimistic cache scan (issuing its
`setCache` calls) and then invokes the original `onMutate`; replace
`onSettled` by a hook that, when an `invalidate` collaborator was
supplied, builds the invalidation predicate from `variables` (third
argument) and calls it, and then invokes the original `onSettled` —
in each case returning the original hook's value. -/
def setupOptimisticUpdate (getMutatedModels : GetMutatedModelsFn)
    (getReadModels : GetReadModelsFn) (applyMutation : ApplyMutationFn)
    (model operation : String) (modelMeta : ModelMeta) (options : MutationOptions)
    (queryCache : List CacheItem) (invalidateSupplied : Bool) (logging : Bool) :
    MutationOptions :=
  let origOnMutate := options.onMutate
  let origOnSettled := options.onSettled
  { options with
    onMutate := some (fun args =>
      let vars := args.get? 0
      let calls := optimisticUpdate applyMutation model operation vars modelMeta queryCache logging
      let orig := runHook origOnMutate args
      (calls.map (fun c => Effect.setCacheCall c.1 c.2) ++ orig.1, orig.2)),
    onSettled := some (fun args =>
      if invalidateSupplied then
        let vars := args.get? 2
        let predicate := getInvalidationPredicate getMutatedModels getReadModels
          model operation vars modelMeta logging
        let orig := runHook origOnSettled args
        (Effect.invalidateCall predicate :: orig.1, orig.2)
      else
        runHook origOnSettled args) }

/-- The option-wiring portion of `useModelMutation` (source
`common.ts:532-565`): derive the operation from the URL's last path
segment; when it is truthy, apply `setupInvalidation` when query
invalidation is requested and `setupOptimisticUpdate` when optimistic
update is requested, handing the latter an `invalidate` collaborator
exactly when query invalidation is requested. -/
def useModelMutationSetup (getMutatedModels : GetMutatedModelsFn)
    (getReadModels : GetReadModelsFn) (applyMutation : ApplyMutationFn)
    (model url : String) (modelMeta : ModelMeta) (options : MutationOptions)
    (invalidateQueries : Bool) (optimisticUpdateFlag : Bool)
    (queryCache : List CacheItem) (logging : Bool) : MutationOptions :=
  let operation := lastSegment url
  if operation == "" then
    options
  else
    let o1 :=
      if invalidateQueries then
        setupInvalidation getMutatedModels getReadModels model operation modelMeta options logging
      else
        options
    if optimisticUpdateFlag then
      setupOptimisticUpdate getMutatedModels getReadModels applyMutation model operation
        modelMeta o1 queryCache invalidateQueries logging
    else
      o1

/-!
### Concrete inputs used by the closed instantiations
-/

/-- A 200-status body carrying the policy-denied read-back error payload
(Scenario B of the spec). -/
def scenarioBBody : Value :=
  .obj [("error", .obj [("prisma", .bool true), ("code", .str "P2004"),
    ("reason", .str "RESULT_NOT_READABLE")])]

/-- A mutated-model resolver returning just the root model. -/
def gmmRoot : GetMutatedModelsFn := fun model _ _ _ => [model]

/-- A read-model scanner returning just the visited model. -/
def grmRoot : GetReadModelsFn := fun model _ _ => [model]

/-- A merge function that patches every query with an empty list. -/
def amEmptyList : ApplyMutationFn := fun _ _ _ _ _ _ _ _ => some (.arr [])

/-- An empty schema graph. -/
def metaEmpty : ModelMeta := ⟨[]⟩

/-- A caller-supplied `onMutate` hook. -/
def hookM : Hook := fun _ => ([], some (.str "M"))

/-- A caller-supplied `onSuccess` hook. -/
def hookS : Hook := fun _ => ([], some (.str "S"))

/-- A caller-supplied `onSettled` hook. -/
def hookT : Hook := fun _ => ([], some (.str "T"))

/-- Options carrying all three caller-supplied hooks. -/
def optsMST : MutationOptions := ⟨some hookM, some hookS, some hookT⟩

/-- A query key opted into optimistic updates, used as the error entry's
key. -/
def keyPostList : QueryKey := ⟨QUERY_KEY_PREFIX, "Post", "findMany", none, ⟨false, true⟩⟩

/-- A second, distinct query key (different model). -/
def keyUserList : QueryKey := ⟨QUERY_KEY_PREFIX, "User", "findMany", none, ⟨false, true⟩⟩

/-- A cache holding an errored entry under `keyPostList` and a healthy
entry under `keyUserList`. -/
def cacheWithError : List CacheItem :=
  [⟨keyPostList, ⟨none, some (.str "boom")⟩⟩,
   ⟨keyUserList, ⟨some (.arr [.obj [("id", .num 1)]]), none⟩⟩]

/-!
## The claims
-/

/-- C2: when `fetcher` runs with default read-back checking
(`checkReadBack` not explicitly `false`) and the response has 200 status
with a body whose `error.prisma` is true, `error.code` is `"P2004"` and
`error.reason` is `"RESULT_NOT_READABLE"` (such an error envelope carries
no `data` payload), the operation resolves to an absent result
(`undefined`) rather than throwing an error. -/
theorem fetcher_readBack_denied_200_resolves_absent (c : Option Bool) (body : Value)
    (hc : c ≠ some false) (hpattern : policyDenied (unmarshal body) = true)
    (hdata : getField (unmarshal body) "data" = none) :
    fetcher c ⟨200, body⟩ = .success none := by
  simp [fetcher, resOk, hdata]

/-- Witness for C2 at `checkReadBack` omitted and the Scenario-B body. -/
theorem fetcher_readBack_denied_200_resolves_absent_witness :
    (none : Option Bool) ≠ some false ∧ policyDenied (unmarshal scenarioBBody) = true ∧
      getField (unmarshal scenarioBBody) "data" = none ∧
      fetcher none ⟨200, scenarioBBody⟩ = .success none :=
  ⟨by decide, rfl, rfl,
    fetcher_readBack_denied_200_resolves_absent none scenarioBBody (by decide) rfl rfl⟩

/-- C3: for every non-success (non-2xx) response whose error payload
matches the policy-denied pattern, `fetcher` resolves to `undefined`
when `checkReadBack` is not explicitly `false`; when the caller passes
`checkReadBack = false`, the same response is instead surfaced as a
thrown error carrying the response's error payload and status code. -/
theorem fetcher_policy_denied_default_vs_disabled (status : Nat) (body : Value)
    (hstatus : resOk status = false) (hpattern : policyDenied (unmarshal body) = true) :
    (∀ c : Option Bool, c ≠ some false → fetcher c ⟨status, body⟩ = .success none) ∧
      fetcher (some false) ⟨status, body⟩ =
        .failure (getField (unmarshal body) "error") status := by
  constructor
  · intro c hc
    have hcb : (c != some false) = true := by
      cases c with
      | none => rfl
      | some b => cases b with
        | false => exact absurd rfl hc
        | true => rfl
    simp [fetcher, hstatus, hcb, hpattern]
  · simp [fetcher, hstatus]

/-- Witness for C3: a 403 response with the policy-denied payload. -/
theorem fetcher_policy_denied_default_vs_disabled_witness :
    resOk 403 = false ∧ policyDenied (unmarshal scenarioBBody) = true ∧
      ((∀ c : Option Bool, c ≠ some false → fetcher c ⟨403, scenarioBBody⟩ = .success none) ∧
        fetcher (some false) ⟨403, scenarioBBody⟩ =
          .failure (getField (unmarshal scenarioBBody) "error") 403) :=
  ⟨rfl, rfl, fetcher_policy_denied_default_vs_disabled 403 scenarioBBody rfl rfl⟩

/-- C4 counterexample: `getQueryKey` succeeds on the routing path
`"post/"`, producing a query identity whose operation component is the
empty string — construction neither fails nor yields a non-empty
operation there, so the claimed invariant does not hold. -/
theorem getQueryKey_empty_operation_counterexample :
    getQueryKey "Post" "post/" none false false =
      .ok ⟨QUERY_KEY_PREFIX, "Post", "", none, ⟨false, false⟩⟩ := rfl

/-- C4 (amended): `getQueryKey` fails exactly on an empty (falsy)
`urlOrOperation`; for any non-empty `urlOrOperation` it succeeds, passing
`model` through unvalidated and deriving the operation as the last
`/`-separated path segment, which may be empty (e.g. for a path ending
in `/`). -/
theorem getQueryKey_fails_iff_empty (model url : String) (args : Option Value)
    (infinite optimisticUpdateFlag : Bool) (h : url ≠ "") :
    getQueryKey model url args infinite optimisticUpdateFlag =
        .ok ⟨QUERY_KEY_PREFIX, model, lastSegment url, args, ⟨infinite, optimisticUpdateFlag⟩⟩ ∧
      getQueryKey model "" args infinite optimisticUpdateFlag =
        .error "Invalid urlOrOperation" := by
  constructor
  · have : (url == "") = false := beq_eq_false_iff_ne.mpr h
    simp [getQueryKey, this]
  · rfl

/-- Witness for C4's amended statement. -/
theorem getQueryKey_fails_iff_empty_witness :
    "api/post/create" ≠ "" ∧
      (getQueryKey "Post" "api/post/create" none false false =
          .ok ⟨QUERY_KEY_PREFIX, "Post", lastSegment "api/post/create", none, ⟨false, false⟩⟩ ∧
        getQueryKey "Post" "" none false false = .error "Invalid urlOrOperation") :=
  ⟨by decide, getQueryKey_fails_iff_empty "Post" "api/post/create" none false false (by decide)⟩

/-- C5: for every cached query identity whose `args` component is absent,
the invalidation predicate returns true iff the query's model is a
member of the mutated-model set (it is never invalidated via nested-read
inference). -/
theorem predicate_no_args_iff_direct_hit (getReadModels : GetReadModelsFn)
    (model operation : String) (mutatedModels : List String) (modelMeta : ModelMeta)
    (logging : Bool) (k : QueryKey) (h : k.args = none) :
    (invalidationPredicate getReadModels model operation mutatedModels modelMeta logging k).1 = true
      ↔ k.model ∈ mutatedModels := by
  unfold invalidationPredicate
  rw [h]
  by_cases hm : k.model ∈ mutatedModels <;> simp [hm, truthyOpt]

/-- Witness for C5. -/
theorem predicate_no_args_iff_direct_hit_witness :
    (⟨QUERY_KEY_PREFIX, "Post", "findMany", none, ⟨false, false⟩⟩ : QueryKey).args = none ∧
      ((invalidationPredicate (fun _ _ _ => []) "Post" "update" ["Post"] ⟨[]⟩ false
          ⟨QUERY_KEY_PREFIX, "Post", "findMany", none, ⟨false, false⟩⟩).1 = true
        ↔ "Post" ∈ ["Post"]) :=
  ⟨rfl, predicate_no_args_iff_direct_hit (fun _ _ _ => []) "Post" "update" ["Post"] ⟨[]⟩ false
    ⟨QUERY_KEY_PREFIX, "Post", "findMany", none, ⟨false, false⟩⟩ rfl⟩

/-- C6: for every cached query identity whose model is a member of the
mutated-model set, the invalidation predicate returns true, regardless
of the query's args or flags. -/
theorem predicate_direct_hit_invalidates (getReadModels : GetReadModelsFn)
    (model operation : String) (mutatedModels : List String) (modelMeta : ModelMeta)
    (logging : Bool) (k : QueryKey) (h : k.model ∈ mutatedModels) :
    (invalidationPredicate getReadModels model operation mutatedModels modelMeta logging k).1 = true := by
  simp [invalidationPredicate, h]

/-- Witness for C6. -/
theorem predicate_direct_hit_invalidates_witness :
    "Post" ∈ ["User", "Post"] ∧
      (invalidationPredicate (fun _ _ _ => []) "Post" "update" ["User", "Post"] ⟨[]⟩ true
        ⟨QUERY_KEY_PREFIX, "Post", "findMany", some (.obj []), ⟨true, true⟩⟩).1 = true :=
  ⟨by decide, predicate_direct_hit_invalidates (fun _ _ _ => []) "Post" "update" ["User", "Post"]
    ⟨[]⟩ true ⟨QUERY_KEY_PREFIX, "Post", "findMany", some (.obj []), ⟨true, true⟩⟩ (by decide)⟩

/-- C9: the invalidation predicate is deterministic and its boolean
result is independent of the logging flag — built from the same
mutated-model set and schema, on the same query key, it returns the same
boolean whether logging is enabled or disabled. -/
theorem predicate_independent_of_logging (getReadModels : GetReadModelsFn)
    (model operation : String) (mutatedModels : List String) (modelMeta : ModelMeta)
    (k : QueryKey) (l1 l2 : Bool) :
    (invalidationPredicate getReadModels model operation mutatedModels modelMeta l1 k).1 =
      (invalidationPredicate getReadModels model operation mutatedModels modelMeta l2 k).1 := by
  unfold invalidationPredicate
  by_cases h1 : k.model ∈ mutatedModels <;> simp [h1]
  by_cases h2 : truthyOpt k.args <;> simp [h2]
  by_cases h3 : findNestedRead getReadModels k.model mutatedModels modelMeta (k.args.getD .null) <;>
    simp [h3]

/-- Every `setCache` call issued by the loop body targets the processed
entry's own key, and is only issued for entries whose error state is
falsy. -/
theorem processCacheItem_call_key (applyMutation : ApplyMutationFn)
    (mutationModel mutationOp : String) (mutationArgs : Option Value) (modelMeta : ModelMeta)
    (logging : Bool) (item : CacheItem) (c : QueryKey × Value)
    (h : (processCacheItem applyMutation mutationModel mutationOp mutationArgs modelMeta logging item).setCacheCall = some c) :
    c.1 = item.queryKey ∧ truthyOpt item.state.error = false := by
  unfold processCacheItem at h
  by_cases herr : truthyOpt item.state.error
  · simp [herr] at h
  · refine ⟨?_, by simpa using herr⟩
    simp only [herr, if_false, Bool.not_eq_true] at h
    by_cases hfl : item.queryKey.flags.optimisticUpdate
    · simp only [hfl, Bool.not_true, if_neg] at h
      rcases ham : applyMutation item.queryKey.model item.queryKey.operation item.state.data
          mutationModel mutationOp mutationArgs modelMeta logging with _ | d
      · rw [ham] at h; simp at h
      · rw [ham] at h
        simp at h
        rw [← h]
    · simp [hfl] at h

/-- C7: during the optimistic-update scan, every cache entry whose state
currently holds an error is skipped — the merge function is never
invoked on it, and (when no other entry shares its key) `setCache` is
never called for its key, leaving the entry's error state untouched. -/
theorem optimisticUpdate_skips_error_entries (applyMutation : ApplyMutationFn)
    (mutationModel mutationOp : String) (mutationArgs : Option Value) (modelMeta : ModelMeta)
    (queryCache : List CacheItem) (logging : Bool) (k : QueryKey)
    (hk : ∀ item ∈ queryCache, item.queryKey = k → truthyOpt item.state.error = true) :
    (∀ item ∈ queryCache, truthyOpt item.state.error = true →
        processCacheItem applyMutation mutationModel mutationOp mutationArgs modelMeta logging item
          = ⟨false, none⟩) ∧
      ∀ c ∈ optimisticUpdate applyMutation mutationModel mutationOp mutationArgs modelMeta queryCache logging,
        c.1 ≠ k := by
  constructor
  · intro item _ herr
    simp [processCacheItem, herr]
  · intro c hc
    rw [optimisticUpdate] at hc
    obtain ⟨item, hitem, hcall⟩ := List.mem_filterMap.mp hc
    obtain ⟨hkey, herr⟩ := processCacheItem_call_key applyMutation mutationModel mutationOp
      mutationArgs modelMeta logging item c hcall
    intro hck
    have : truthyOpt item.state.error = true := hk item hitem (hkey ▸ hck)
    rw [this] at herr
    exact Bool.noConfusion herr

/-- Witness for C7: the errored entry of `cacheWithError` is skipped and
no `setCache` call targets its key. -/
theorem optimisticUpdate_skips_error_entries_witness :
    (∀ item ∈ cacheWithError, item.queryKey = keyPostList → truthyOpt item.state.error = true) ∧
      ((∀ item ∈ cacheWithError, truthyOpt item.state.error = true →
          processCacheItem amEmptyList "Post" "update" none metaEmpty false item
            = ⟨false, none⟩) ∧
        ∀ c ∈ optimisticUpdate amEmptyList "Post" "update" none metaEmpty cacheWithError false,
          c.1 ≠ keyPostList) := by
  have hk : ∀ item ∈ cacheWithError, item.queryKey = keyPostList →
      truthyOpt item.state.error = true := by
    intro item hitem heq
    simp only [cacheWithError, List.mem_cons, List.not_mem_nil, or_false] at hitem
    rcases hitem with h | h
    · rw [h]; rfl
    · rw [h] at heq
      exact absurd (congrArg QueryKey.model heq) (by simp [keyUserList, keyPostList])
  exact ⟨hk, optimisticUpdate_skips_error_entries amEmptyList "Post" "update" none metaEmpty
    cacheWithError false keyPostList hk⟩

/-- C8: every lifecycle phase wrapped by `setupInvalidation` and
`setupOptimisticUpdate` (`onMutate`, `onSuccess`, `onSettled`), when the
caller supplied an original hook for that phase, invokes the original
hook after its own logic (its effects follow the wrapper's own) and
returns the original hook's return value as the phase's own result. -/
theorem wrapped_phases_preserve_original_hooks (getMutatedModels : GetMutatedModelsFn)
    (getReadModels : GetReadModelsFn) (applyMutation : ApplyMutationFn)
    (model operation : String) (modelMeta : ModelMeta) (options : MutationOptions)
    (queryCache : List CacheItem) (invalidateSupplied : Bool) (logging : Bool)
    (args : List Value) (hM hS hT : Hook)
    (hOnMutate : options.onMutate = some hM)
    (hOnSuccess : options.onSuccess = some hS)
    (hOnSettled : options.onSettled = some hT) :
    runHook (setupInvalidation getMutatedModels getReadModels model operation modelMeta options logging).onSuccess args
        = (Effect.invalidateCall (getInvalidationPredicate getMutatedModels getReadModels
              model operation (args.get? 1) modelMeta logging) :: (hS args).1,
           (hS args).2)
      ∧ runHook (setupOptimisticUpdate getMutatedModels getReadModels applyMutation model operation
              modelMeta options queryCache invalidateSupplied logging).onMutate args
        = ((optimisticUpdate applyMutation model operation (args.get? 0) modelMeta queryCache logging).map
              (fun c => Effect.setCacheCall c.1 c.2) ++ (hM args).1,
           (hM args).2)
      ∧ (invalidateSupplied = true →
          runHook (setupOptimisticUpdate getMutatedModels getReadModels applyMutation model operation
                modelMeta options queryCache invalidateSupplied logging).onSettled args
            = (Effect.invalidateCall (getInvalidationPredicate getMutatedModels getReadModels
                  model operation (args.get? 2) modelMeta logging) :: (hT args).1,
               (hT args).2))
      ∧ (invalidateSupplied = false →
          runHook (setupOptimisticUpdate getMutatedModels getReadModels applyMutation model operation
                modelMeta options queryCache invalidateSupplied logging).onSettled args
            = hT args) := by
  refine ⟨?_, ?_, ?_, ?_⟩
  · simp [setupInvalidation, runHook, hOnSuccess]
  · simp [setupOptimisticUpdate, runHook, hOnMutate]
  · intro hinv
    simp [setupOptimisticUpdate, runHook, hOnSettled, hinv]
  · intro hinv
    simp [setupOptimisticUpdate, runHook, hOnSettled, hinv]

/-- Witness for C8 at concrete collaborators, options and argument
list. -/
theorem wrapped_phases_preserve_original_hooks_witness :
    optsMST.onMutate = some hookM ∧
      (runHook (setupInvalidation gmmRoot grmRoot "Post" "update" metaEmpty optsMST false).onSuccess
            [.num 1, .num 2, .num 3]
          = (Effect.invalidateCall (getInvalidationPredicate gmmRoot grmRoot
                "Post" "update" ([Value.num 1, .num 2, .num 3].get? 1) metaEmpty false) ::
                (hookS [.num 1, .num 2, .num 3]).1,
             (hookS [.num 1, .num 2, .num 3]).2)
        ∧ runHook (setupOptimisticUpdate gmmRoot grmRoot amEmptyList "Post" "update"
                metaEmpty optsMST cacheWithError true false).onMutate [.num 1, .num 2, .num 3]
          = ((optimisticUpdate amEmptyList "Post" "update" ([Value.num 1, .num 2, .num 3].get? 0)
                metaEmpty cacheWithError false).map (fun c => Effect.setCacheCall c.1 c.2) ++
                (hookM [.num 1, .num 2, .num 3]).1,
             (hookM [.num 1, .num 2, .num 3]).2)
        ∧ (true = true →
            runHook (setupOptimisticUpdate gmmRoot grmRoot amEmptyList "Post" "update"
                  metaEmpty optsMST cacheWithError true false).onSettled [.num 1, .num 2, .num 3]
              = (Effect.invalidateCall (getInvalidationPredicate gmmRoot grmRoot
                    "Post" "update" ([Value.num 1, .num 2, .num 3].get? 2) metaEmpty false) ::
                    (hookT [.num 1, .num 2, .num 3]).1,
                 (hookT [.num 1, .num 2, .num 3]).2))
        ∧ (true = false →
            runHook (setupOptimisticUpdate gmmRoot grmRoot amEmptyList "Post" "update"
                  metaEmpty optsMST cacheWithError true false).onSettled [.num 1, .num 2, .num 3]
              = hookT [.num 1, .num 2, .num 3])) :=
  ⟨rfl, wrapped_phases_preserve_original_hooks gmmRoot grmRoot amEmptyList "Post" "update"
    metaEmpty optsMST cacheWithError true false [.num 1, .num 2, .num 3]
    hookM hookS hookT rfl rfl rfl⟩

/-- C10: when a mutation is wired with both query invalidation and
optimistic update enabled, a successful mutation invokes the
`invalidate` collaborator twice with independently built predicates over
the same mutated-model set: once in the `onSuccess` phase (installed by
`setupInvalidation`) and again in the `onSettled` phase (installed by
`setupOptimisticUpdate`). -/
theorem useModelMutation_invalidates_in_success_and_settled (getMutatedModels : GetMutatedModelsFn)
    (getReadModels : GetReadModelsFn) (applyMutation : ApplyMutationFn)
    (model url : String) (modelMeta : ModelMeta) (options : MutationOptions)
    (queryCache : List CacheItem) (logging : Bool) (d v ctx e : Value)
    (hop : lastSegment url ≠ "")
    (hS : options.onSuccess = none) (hT : options.onSettled = none) :
    runHook (useModelMutationSetup getMutatedModels getReadModels applyMutation model url
          modelMeta options true true queryCache logging).onSuccess [d, v, ctx]
        = ([Effect.invalidateCall (getInvalidationPredicate getMutatedModels getReadModels
            model (lastSegment url) (some v) modelMeta logging)], none)
      ∧ runHook (useModelMutationSetup getMutatedModels getReadModels applyMutation model url
            modelMeta options true true queryCache logging).onSettled [d, e, v, ctx]
        = ([Effect.invalidateCall (getInvalidationPredicate getMutatedModels getReadModels
            model (lastSegment url) (some v) modelMeta logging)], none) := by
  have hop' : (lastSegment url == "") = false := beq_eq_false_iff_ne.mpr hop
  constructor <;>
    simp [useModelMutationSetup, hop', setupInvalidation, setupOptimisticUpdate, runHook, hS, hT]

/-- Witness for C10 at a concrete mutation wiring. -/
theorem useModelMutation_invalidates_in_success_and_settled_witness :
    lastSegment "post/update" ≠ "" ∧
      (runHook (useModelMutationSetup gmmRoot grmRoot amEmptyList "Post" "post/update"
            metaEmpty ⟨none, none, none⟩ true true cacheWithError false).onSuccess
            [.num 1, .num 2, .num 3]
          = ([Effect.invalidateCall (getInvalidationPredicate gmmRoot grmRoot
              "Post" (lastSegment "post/update") (some (.num 2)) metaEmpty false)], none)
        ∧ runHook (useModelMutationSetup gmmRoot grmRoot amEmptyList "Post" "post/update"
              metaEmpty ⟨none, none, none⟩ true true cacheWithError false).onSettled
              [.num 1, .num 4, .num 2, .num 3]
          = ([Effect.invalidateCall (getInvalidationPredicate gmmRoot grmRoot
              "Post" (lastSegment "post/update") (some (.num 2)) metaEmpty false)], none)) :=
  ⟨by decide,
    useModelMutation_invalidates_in_success_and_settled gmmRoot grmRoot amEmptyList
      "Post" "post/update" metaEmpty ⟨none, none, none⟩ cacheWithError false
      (.num 1) (.num 2) (.num 3) (.num 4) (by decide) rfl rfl⟩

mutual

/-- On a value without dates, `serializeData` is the identity. -/
theorem serializeData_of_no_dates : ∀ (v : Value), datePaths v = [] → serializeData v = v
  | .null, _ => rfl
  | .bool _, _ => rfl
  | .num _, _ => rfl
  | .str _, _ => rfl
  | .date _, h => by simp [datePaths] at h
  | .arr xs, h => by
      have h' : datePathsList 0 xs = [] := by simpa [datePaths] using h
      simp only [serializeData]
      rw [serializeDataList_of_no_dates 0 xs h']
  | .obj fs, h => by
      have h' : datePathsFields fs = [] := by simpa [datePaths] using h
      simp only [serializeData]
      rw [serializeDataFields_of_no_dates fs h']

/-- List version of `serializeData_of_no_dates`. -/
theorem serializeDataList_of_no_dates :
    ∀ (i : Nat) (xs : List Value), datePathsList i xs = [] → serializeDataList xs = xs
  | _, [], _ => rfl
  | i, x :: xs, h => by
      rw [datePathsList] at h
      obtain ⟨h1, h2⟩ := List.append_eq_nil.mp h
      rw [serializeDataList, serializeData_of_no_dates x (List.map_eq_nil_iff.mp h1),
        serializeDataList_of_no_dates (i + 1) xs h2]

/-- Field-list version of `serializeData_of_no_dates`. -/
theorem serializeDataFields_of_no_dates :
    ∀ (fs : List (String × Value)), datePathsFields fs = [] → serializeDataFields fs = fs
  | [], _ => rfl
  | (k, v) :: fs, h => by
      rw [datePathsFields] at h
      obtain ⟨h1, h2⟩ := List.append_eq_nil.mp h
      rw [serializeDataFields, serializeData_of_no_dates v (List.map_eq_nil_iff.mp h1),
        serializeDataFields_of_no_dates fs h2]

end

/-- On a value without dates, `marshal` emits the value unchanged (no
metadata envelope is added). -/
theorem marshal_of_no_dates (v : Value) (h : datePaths v = []) : marshal v = v := by
  simp [marshal, serialize, h, serializeData_of_no_dates v h]

/-- When the body does not trigger the envelope-deserialization branch,
`unmarshal` returns it unchanged. -/
theorem unmarshal_of_no_envelope (v : Value) (h : envelopeParts v = none) : unmarshal v = v := by
  simp [unmarshal, h]

/-- C1 counterexample: for the value `{d: new Date(0)}`, which contains
only JSON-representable and explicitly-supported rich types, the
round-trip fails — `marshal` spreads the serialized payload and puts the
metadata under a top-level `meta` key, but `unmarshal` only restores rich
values found under a top-level `data` key, so the date comes back as a
string with a stray `meta` field. -/
theorem unmarshal_marshal_differs_on_date :
    unmarshal (marshal (.obj [("d", .date 0)])) ≠ .obj [("d", .date 0)] := by
  intro h
  rw [show unmarshal (marshal (.obj [("d", .date 0)]))
      = .obj [("d", .str "0"), ("meta", .obj [("serialization", .arr [.arr [.str "d"]])])]
      from rfl] at h
  simp at h

/-- C1 (amended): `unmarshal (marshal x)` reconstructs a value deep-equal
to `x` for any value `x` containing only JSON-representable types (no
rich values such as dates), provided `x` is not `null` (top-level
property access on `null` throws in JavaScript) and `x` does not itself
mimic the response envelope — a truthy `data` field alongside
`meta.serialization` — which `unmarshal` would attempt to
deserialize. -/
theorem unmarshal_marshal_roundtrip_json (x : Value) (hdates : datePaths x = [])
    (hnull : x ≠ .null) (henv : envelopeParts x = none) :
    unmarshal (marshal x) = x := by
  rw [marshal_of_no_dates x hdates, unmarshal_of_no_envelope x henv]

/-- Witness for C1's amended statement. -/
theorem unmarshal_marshal_roundtrip_json_witness :
    datePaths (.obj [("a", .num 1)]) = [] ∧ (Value.obj [("a", .num 1)]) ≠ .null ∧
      envelopeParts (.obj [("a", .num 1)]) = none ∧
      unmarshal (marshal (.obj [("a", .num 1)])) = .obj [("a", .num 1)] :=
  ⟨rfl, fun h => Value.noConfusion h, rfl,
    unmarshal_marshal_roundtrip_json (.obj [("a", .num 1)]) rfl (fun h => Value.noConfusion h) rfl⟩

end ZenStack
